import Mathlib

set_option maxRecDepth 40000
set_option maxHeartbeats 2000000

/-!
Verification development for the CrossExamine repository (a voice-driven
question answering demo over deposition transcripts).  The definitions below
are shallow embeddings of the Python source files `vector_store.py`,
`transcribe_voice_openai.py` and `app.py`, together with the library routines
they configure (the recursive character text splitter, base64 encoding, the
per-rerun Streamlit execution model).  Strings are modelled as `List Char`,
byte strings as `List Nat` (each entry `< 256`), and the file system as an
association list from names to contents.
-/

/-! ### Text splitter (`vector_store.py`, lines 11-15)

`text_splitter = RecursiveCharacterTextSplitter(separators=["\n\n"],
chunk_size=1250, chunk_overlap=250)`.  With a single separator the library
algorithm specialises to: split the text on literal `"\n\n"` (the separator is
kept, attached to the start of the following piece, and empty pieces are
dropped); pieces shorter than `chunk_size` are merged into chunks with an
overlap of whole pieces totalling at most `chunk_overlap`; a piece of length
`≥ chunk_size` is emitted verbatim as its own chunk. -/

def chunk_size : Nat := 1250

def chunk_overlap : Nat := 250

/-- Python `str.strip()` whitespace set. -/
def isPyWs (c : Char) : Bool :=
  c = ' ' || c = '\t' || c = '\n' || c = '\r' || c = '\x0b' || c = '\x0c'

/-- Python `str.strip()`: drop leading and trailing whitespace. -/
def pyStrip (s : List Char) : List Char :=
  ((s.dropWhile isPyWs).reverse.dropWhile isPyWs).reverse

/-- Python `text.split("\n\n")` (equivalently `re.split` on the escaped
separator): leftmost, non-overlapping matches of two consecutive newlines. -/
def splitOnBlank : List Char → List (List Char)
  | [] => [[]]
  | '\n' :: '\n' :: rest => [] :: splitOnBlank rest
  | c :: rest =>
    match splitOnBlank rest with
    | [] => [[c]]
    | p :: ps => (c :: p) :: ps

/-- `_split_text_with_regex(text, "\n\n", keep_separator=True)`: each
separator occurrence is re-attached to the start of the following piece and
empty pieces are removed. -/
def split_text_keep_sep (text : List Char) : List (List Char) :=
  match splitOnBlank text with
  | [] => []
  | p :: ps => (p :: ps.map (fun s => '\n' :: '\n' :: s)).filter (fun s => !s.isEmpty)

/-- `TextSplitter._join_docs(current_doc, separator="")`: concatenate, strip
whitespace, and return `none` for the empty result. -/
def join_docs (docs : List (List Char)) : Option (List Char) :=
  let text := pyStrip docs.flatten
  if text.isEmpty then none else some text

/-- The inner `while` loop of `TextSplitter._merge_splits`: after a chunk is
emitted, pieces are popped from the front of `current_doc` until the retained
total is at most `chunk_overlap` and the next piece fits (the Python loop
indexes `current_doc[0]`, which under the invariant `total = Σ lengths` is
never reached on an empty list; the `[]` equation below is that unreachable
case). -/
def pop_loop (dLen : Nat) : List (List Char) → Nat → List (List Char) × Nat
  | [], total => ([], total)
  | c :: cs, total =>
    if chunk_overlap < total ∨ (chunk_size < total + dLen ∧ 0 < total) then
      pop_loop dLen cs (total - c.length)
    else (c :: cs, total)

/-- The main loop of `TextSplitter._merge_splits` (separator `""` because
`keep_separator=True`): accumulate pieces into `cur` while the running total
fits in `chunk_size`; on overflow emit the joined chunk and retain an overlap
via `pop_loop`. -/
def merge_loop : List (List Char) → List (List Char) → Nat → List (List Char) → List (List Char)
  | [], cur, _total, docs => docs ++ (join_docs cur).toList
  | d :: rest, cur, total, docs =>
    if chunk_size < total + d.length then
      match cur with
      | [] => merge_loop rest [d] (total + d.length) docs
      | c :: cs =>
        let docs2 := docs ++ (join_docs (c :: cs)).toList
        let p := pop_loop d.length (c :: cs) total
        merge_loop rest (p.1 ++ [d]) (p.2 + d.length) docs2
    else merge_loop rest (cur ++ [d]) (total + d.length) docs

def merge_splits (splits : List (List Char)) : List (List Char) :=
  merge_loop splits [] 0 []

/-- The loop of `RecursiveCharacterTextSplitter._split_text`: pieces shorter
than `chunk_size` are collected and merged; an oversized piece flushes the
collected pieces and is emitted verbatim (there are no finer separators to
recurse into). -/
def split_loop : List (List Char) → List (List Char) → List (List Char) → List (List Char)
  | [], good, final => final ++ (if good.isEmpty then [] else merge_splits good)
  | s :: rest, good, final =>
    if s.length < chunk_size then split_loop rest (good ++ [s]) final
    else split_loop rest [] ((final ++ (if good.isEmpty then [] else merge_splits good)) ++ [s])

/-- `text_splitter.split_text(text)`; `split_documents` applies this to the
single document produced by `TextLoader` and wraps each chunk as a document. -/
def split_text (text : List Char) : List (List Char) :=
  split_loop (split_text_keep_sep text) [] []

/-! ### File system model

Files are an association list from names (`List Char`) to contents; `writeFS`
models `open(name, "wb")` followed by a full write, `removeFS` models
`os.remove`, and `lookupFS` models reading an existing file. -/

abbrev FS (α : Type) : Type := List (List Char × α)

def lookupFS {α : Type} : FS α → List Char → Option α
  | [], _ => none
  | e :: rest, n => if e.1 = n then some e.2 else lookupFS rest n

def removeFS {α : Type} (fs : FS α) (n : List Char) : FS α :=
  fs.filter (fun e => !decide (e.1 = n))

def writeFS {α : Type} (fs : FS α) (n : List Char) (v : α) : FS α :=
  (n, v) :: removeFS fs n

/-! ### Voice transcription and speech synthesis (`transcribe_voice_openai.py`)

The speech-to-text and text-to-speech services are external collaborators and
enter the model as function parameters; bytes are `List Nat`. -/

def question_wav : List Char := "Question.wav".toList

def speech_wav : List Char := "speech.wav".toList

/-- Lines 27-28 of `transcribe_voice_openai.py`: `if os.path.exists(filename):
os.remove(filename)` — deletion guarded by an existence check. -/
def cleanup_question_wav (fs : FS (List Nat)) : FS (List Nat) :=
  if (lookupFS fs question_wav).isSome then removeFS fs question_wav else fs

/-- `record_and_transcribe(client, audio_bytes)`: write the recording to the
fixed file `Question.wav`, read it back and submit it to the transcription
service, then delete the file behind the existence guard.  The success path is
modelled; a service failure would propagate before the cleanup runs. -/
def record_and_transcribe (fs : FS (List Nat)) (audio_bytes : List Nat)
    (transcription_service : List Nat → List Char) : FS (List Nat) × List Char :=
  let fs1 := writeFS fs question_wav audio_bytes
  let transcript := transcription_service ((lookupFS fs1 question_wav).getD [])
  (cleanup_question_wav fs1, transcript)

/-- `create_output_speech(client, response_text, voice)`: the synthesized audio
is streamed to the fixed file `speech.wav`, overwritten on each call. -/
def create_output_speech (fs : FS (List Nat)) (response_text : List Char)
    (tts_service : List Char → List Nat) : FS (List Nat) :=
  writeFS fs speech_wav (tts_service response_text)

/-! ### Base64 (`base64.b64encode` / `base64.b64decode`)

Standard RFC 4648 base64 over byte lists; `convert_audio_to_base64` reads a
file and encodes it (the trailing `.decode("utf-8")` is the identity on the
ASCII output and is not modelled separately). -/

def b64chars : List Char :=
  "ABCDEFGHIJKLMNOPQRSTUVWXYZabcdefghijklmnopqrstuvwxyz0123456789+/".toList

def encodeChar (n : Nat) : Char := b64chars.getD n 'A'

def idxOfCharIn (c : Char) : List Char → Nat
  | [] => 0
  | a :: as => if a = c then 0 else idxOfCharIn c as + 1

def decodeChar (c : Char) : Nat := idxOfCharIn c b64chars

def b64encode : List Nat → List Char
  | [] => []
  | [b1] => [encodeChar (b1 / 4), encodeChar (b1 % 4 * 16), '=', '=']
  | [b1, b2] =>
    [encodeChar (b1 / 4), encodeChar (b1 % 4 * 16 + b2 / 16), encodeChar (b2 % 16 * 4), '=']
  | b1 :: b2 :: b3 :: rest =>
    encodeChar (b1 / 4) :: encodeChar (b1 % 4 * 16 + b2 / 16) ::
      encodeChar (b2 % 16 * 4 + b3 / 64) :: encodeChar (b3 % 64) :: b64encode rest

def b64decode : List Char → List Nat
  | c1 :: c2 :: c3 :: c4 :: rest =>
    if c3 = '=' then [decodeChar c1 * 4 + decodeChar c2 / 16]
    else if c4 = '=' then
      [decodeChar c1 * 4 + decodeChar c2 / 16, decodeChar c2 % 16 * 16 + decodeChar c3 / 4]
    else
      (decodeChar c1 * 4 + decodeChar c2 / 16) ::
        (decodeChar c2 % 16 * 16 + decodeChar c3 / 4) ::
        (decodeChar c3 % 4 * 64 + decodeChar c4) :: b64decode rest
  | _ => []

/-- `convert_audio_to_base64(audio_file_path)`: read the file and base64-encode
its bytes (`none` models the uncaught error on a missing file). -/
def convert_audio_to_base64 (fs : FS (List Nat)) (audio_file_path : List Char) :
    Option (List Char) :=
  (lookupFS fs audio_file_path).map b64encode

/-! ### Collection creation and retrieval (`vector_store.py`, `app.py`) -/

/-- `create_new_collection_streamlit(collection_name_str, pdf_file)`.  The PDF
to text conversion is the external `read` collaborator, absent from the
sources (Modelled from the spec: the `read` module writes an adjacent `.txt`
file whose text is loaded here); the function therefore takes the extracted
text directly, loads it as one document and applies `text_splitter`, returning
the single list of chunks. -/
def create_new_collection_streamlit (pdf_text : List Char) : List (List Char) :=
  split_text pdf_text

/-- Outcome of the create-new-collection submit path of
`initialize_BM25Retriever` (`app.py` lines 163-166). -/
inductive CreateSubmitResult : Type
  | unpackError : Nat → CreateSubmitResult
  | retrieverFromSecond : List Char → CreateSubmitResult
deriving DecidableEq

/-- The submit path of `initialize_BM25Retriever`: `db, splits =
create_new_collection_streamlit(...)` performs Python 2-target iterable
unpacking of the returned chunk list — a `ValueError` unless the list has
exactly two elements — and then hands only the second element to
`BM25Retriever.from_documents`. -/
def initialize_BM25Retriever_submit (pdf_text : List Char) : CreateSubmitResult :=
  match create_new_collection_streamlit pdf_text with
  | [_db, splits] => CreateSubmitResult.retrieverFromSecond splits
  | l => CreateSubmitResult.unpackError l.length

/-- The two directories the code writes to or lists: `os.getcwd()` (uploads
and the files the `read` module writes next to them) and the fixed
`data/` directory scanned by `os.listdir` in `initialize_BM25Retriever`. -/
inductive Dir : Type
  | cwd : Dir
  | data : Dir
deriving DecidableEq

def dot_txt : List Char := ".txt".toList

def dot_pdf : List Char := ".pdf".toList

/-- Files written by the create-new-collection submit path: `app.py:160`
writes the upload to `os.path.join(os.getcwd(), name + ".pdf")`, and the
`read` collaborator (Modelled from the spec: writes adjacent `.txt` files)
then writes `name + ".txt"` next to it, i.e. also in the working directory. -/
def create_collection_writes (name : List Char) : List (Dir × List Char) :=
  [(Dir.cwd, name ++ dot_pdf), (Dir.cwd, name ++ dot_txt)]

/-- `app.py` lines 141-147: list `data/` and keep the `.txt` files; these are
the collections offered for selection. -/
def collection_list (files : List (Dir × List Char)) : List (List Char) :=
  (files.filter (fun e => decide (e.1 = Dir.data) && dot_txt.isSuffixOf e.2)).map Prod.snd

def data_slash : List Char := "data/".toList

/-- Stable insertion of a document into a list ranked by descending score:
an abstract but deterministic stand-in for the library ranking (the BM25
floating-point scores enter as the arbitrary fixed function `score`;
determinism does not depend on the score values). -/
def insertDesc (score : List Char → Int) (d : List Char) : List (List Char) → List (List Char)
  | [] => [d]
  | e :: es => if score e < score d then d :: e :: es else e :: insertDesc score d es

def rank_by_score (score : List Char → Int) : List (List Char) → List (List Char)
  | [] => []
  | d :: ds => insertDesc score d (rank_by_score score ds)

def bm25_top_n (score : List Char → Int) (docs : List (List Char)) (k : Nat) :
    List (List Char) :=
  (rank_by_score score docs).take k

/-- `load_BM25Retriever(filepath)`: `TextLoader(f"data/{filepath}")` loads the
collection file as one document, `text_splitter.split_documents` chunks it,
and the retriever indexes exactly those chunks (`none` models the uncaught
error on a missing file). -/
def load_BM25Retriever (fs : FS (List Char)) (filepath : List Char) :
    Option (List (List Char)) :=
  (lookupFS fs (data_slash ++ filepath)).map split_text

/-- One retrieval inside a session: every Streamlit rerun re-executes
`initialize_BM25Retriever`, rebuilding the retriever from the on-disk
collection before answering the query. -/
def retrieve_in_session (score : List Char → List Char → Int) (fs : FS (List Char))
    (filepath query : List Char) (k : Nat) : Option (List (List Char)) :=
  (load_BM25Retriever fs filepath).map (fun splits => bm25_top_n (score query) splits k)

/-! ### Session orchestration (`app.py`, `run_chatbot` and `main`)

Streamlit re-executes the whole script on every user interaction: locals of
`run_chatbot` (in particular `chat_history`, line 188) are recreated on every
rerun, while `st.session_state` (here `conversation_history`) and the file
system persist.  The external services are function parameters. -/

structure Services where
  transcription : List Nat → List Char
  rag_answer : List Char → List (List Char) → List Char
  tts : List Char → List Nat

structure RerunOutcome where
  historyPassed : Option (List (List Char))
  conversation_history : List (List Char × List Char)
  fs : FS (List Nat)
  rendered : List (List Char × List Char)
  player : Option (List Char)
deriving DecidableEq

def role_you : List Char := "You".toList

def role_bot : List Char := "Bot".toList

/-- One rerun of `run_chatbot` (`app.py` lines 170-218).  `retriever` is the
result of `initialize_BM25Retriever` (the body runs only when it is not
`None`); `audio_bytes` are the recorded bytes (Python treats empty bytes as
falsy, so the turn body runs only on nonempty audio).  `historyPassed` records
the `chat_history` value handed to `rag_chain.invoke`; the `extend` on line
205 mutates only the local list, which is discarded when the rerun ends. -/
def run_chatbot (sv : Services) (retriever : Option (List (List Char)))
    (fs : FS (List Nat)) (conv : List (List Char × List Char)) (audio_bytes : List Nat) :
    RerunOutcome :=
  match retriever with
  | none =>
    { historyPassed := none, conversation_history := conv, fs := fs,
      rendered := [], player := none }
  | some _docs =>
    let chat_history : List (List Char) := []
    if audio_bytes.isEmpty then
      { historyPassed := none, conversation_history := conv, fs := fs,
        rendered := [], player := none }
    else
      let r := record_and_transcribe fs audio_bytes sv.transcription
      let user_input := r.2
      let response := sv.rag_answer user_input chat_history
      let fs2 := create_output_speech r.1 response sv.tts
      let conv2 := conv ++ [(role_you, user_input), (role_bot, response)]
      { historyPassed := some chat_history,
        conversation_history := conv2,
        fs := fs2,
        rendered := conv2,
        player := convert_audio_to_base64 fs2 speech_wav }

def session_reruns_go (sv : Services) (retriever : Option (List (List Char))) :
    FS (List Nat) → List (List Char × List Char) → List (List Nat) → List RerunOutcome
  | _fs, _conv, [] => []
  | fs, conv, audio :: rest =>
    let o := run_chatbot sv retriever fs conv audio
    o :: session_reruns_go sv retriever o.fs o.conversation_history rest

/-- A whole session: one rerun per recorded question, the conversation log and
the file system persisting across reruns. -/
def session_reruns (sv : Services) (retriever : Option (List (List Char)))
    (audios : List (List Nat)) : List RerunOutcome :=
  session_reruns_go sv retriever [] [] audios

/-! ### Voice selection (`app.py`, lines 31-36 and 233) -/

def voice_dict : List (String × String) :=
  [("Adam", "alloy"), ("Onyx", "onyx"), ("Nova", "nova"), ("Ocean", "shimmer")]

/-- `st.selectbox('Select Voice:', list(voice_dict.keys()))`: the selectable
labels are exactly the dictionary keys. -/
def voice_options : List String := voice_dict.map Prod.fst

/-- The lookup `voice_dict[voice_key]` performed on line 207. -/
def lookup_voice (k : String) : Option String := voice_dict.lookup k

/-! ### Concrete inputs used by counterexamples and witnesses -/

def c1ex : List Char := List.replicate 1251 'a' ++ '\n' :: '\n' :: List.replicate 350 'b'

def c5ex_two_chunks : List Char :=
  List.replicate 700 'a' ++ '\n' :: '\n' :: List.replicate 700 'b'

def sample_services : Services :=
  { transcription := fun bs => bs.map (fun b => Char.ofNat b)
    rag_answer := fun input history => input ++ '!' :: history.flatten
    tts := fun t => t.map Char.toNat }

def no_outcome : RerunOutcome :=
  { historyPassed := none, conversation_history := [], fs := [], rendered := [],
    player := none }

def sum_len (l : List (List Char)) : Nat := (l.map List.length).sum

/-! ### Lemmas about the text splitter -/

theorem sum_len_nil : sum_len [] = 0 := rfl

theorem sum_len_cons (c : List Char) (cs : List (List Char)) :
    sum_len (c :: cs) = c.length + sum_len cs := by
  simp [sum_len]

theorem sum_len_append (l1 l2 : List (List Char)) :
    sum_len (l1 ++ l2) = sum_len l1 + sum_len l2 := by
  simp [sum_len]

theorem pyStrip_length_le (s : List Char) : (pyStrip s).length ≤ s.length := by
  unfold pyStrip
  calc ((s.dropWhile isPyWs).reverse.dropWhile isPyWs).reverse.length
      = ((s.dropWhile isPyWs).reverse.dropWhile isPyWs).length := List.length_reverse _
    _ ≤ (s.dropWhile isPyWs).reverse.length := (List.dropWhile_sublist isPyWs).length_le
    _ = (s.dropWhile isPyWs).length := List.length_reverse _
    _ ≤ s.length := (List.dropWhile_sublist isPyWs).length_le

theorem join_docs_length_le (cur : List (List Char)) (doc : List Char)
    (h : join_docs cur = some doc) : doc.length ≤ sum_len cur := by
  unfold join_docs at h
  by_cases he : (pyStrip cur.flatten).isEmpty
  · simp [he] at h
  · simp only [he, if_neg, Bool.false_eq_true, not_false_eq_true, if_false,
      Option.some.injEq] at h
    subst h
    calc (pyStrip cur.flatten).length ≤ cur.flatten.length := pyStrip_length_le _
      _ = sum_len cur := by simp [sum_len, List.length_flatten]

theorem pop_loop_spec (dLen : Nat) :
    ∀ (cur : List (List Char)) (total : Nat), total = sum_len cur →
      (pop_loop dLen cur total).2 = sum_len (pop_loop dLen cur total).1 ∧
      (pop_loop dLen cur total).2 ≤ chunk_overlap ∧
      ((pop_loop dLen cur total).2 + dLen ≤ chunk_size ∨ (pop_loop dLen cur total).2 = 0)
  | [], total, h => by
    rw [sum_len_nil] at h
    subst h
    simp [pop_loop, sum_len_nil, chunk_overlap]
  | c :: cs, total, h => by
    simp only [pop_loop]
    by_cases hcond : chunk_overlap < total ∨ (chunk_size < total + dLen ∧ 0 < total)
    · simp only [if_pos hcond]
      refine pop_loop_spec dLen cs (total - c.length) ?_
      rw [sum_len_cons] at h
      omega
    · simp only [if_neg hcond]
      push_neg at hcond
      exact ⟨h, by omega, by omega⟩

theorem merge_loop_bounded :
    ∀ (splits cur : List (List Char)) (total : Nat) (docs : List (List Char)),
      (∀ s ∈ splits, s.length < chunk_size) →
      total = sum_len cur →
      sum_len cur ≤ chunk_size →
      (∀ d ∈ docs, d.length ≤ chunk_size) →
      ∀ d ∈ merge_loop splits cur total docs, d.length ≤ chunk_size
  | [], cur, total, docs, _hs, _ht, hcur, hdocs, d, hd => by
    simp only [merge_loop] at hd
    rcases List.mem_append.mp hd with h | h
    · exact hdocs d h
    · cases hj : join_docs cur with
      | none => simp [hj] at h
      | some doc =>
        simp only [hj, Option.toList_some, List.mem_singleton] at h
        subst h
        exact le_trans (join_docs_length_le cur d hj) hcur
  | s :: rest, cur, total, docs, hs, ht, hcur, hdocs, d, hd => by
    have hs_head : s.length < chunk_size := hs s (List.mem_cons_self s rest)
    have hs_rest : ∀ x ∈ rest, x.length < chunk_size :=
      fun x hx => hs x (List.mem_cons_of_mem s hx)
    simp only [merge_loop] at hd
    by_cases hov : chunk_size < total + s.length
    · rw [if_pos hov] at hd
      cases cur with
      | nil =>
        rw [sum_len_nil] at ht
        omega
      | cons c cs =>
        simp only at hd
        have hps := pop_loop_spec s.length (c :: cs) total ht
        refine merge_loop_bounded rest ((pop_loop s.length (c :: cs) total).1 ++ [s])
          ((pop_loop s.length (c :: cs) total).2 + s.length) _ hs_rest ?_ ?_ ?_ d hd
        · rw [sum_len_append, sum_len_cons, sum_len_nil, hps.1]
          omega
        · rw [sum_len_append, sum_len_cons, sum_len_nil, ← hps.1]
          rcases hps.2.2 with h | h <;> omega
        · intro x hx
          rcases List.mem_append.mp hx with h | h
          · exact hdocs x h
          · cases hj : join_docs (c :: cs) with
            | none => simp [hj] at h
            | some doc =>
              simp only [hj, Option.toList_some, List.mem_singleton] at h
              subst h
              exact le_trans (join_docs_length_le _ x hj) (ht ▸ hcur)
    · rw [if_neg hov] at hd
      refine merge_loop_bounded rest (cur ++ [s]) (total + s.length) docs hs_rest ?_ ?_
        hdocs d hd
      · rw [sum_len_append, sum_len_cons, sum_len_nil]
        omega
      · rw [sum_len_append, sum_len_cons, sum_len_nil]
        omega

theorem merge_splits_bounded (splits : List (List Char))
    (hs : ∀ s ∈ splits, s.length < chunk_size) :
    ∀ d ∈ merge_splits splits, d.length ≤ chunk_size :=
  merge_loop_bounded splits [] 0 [] hs rfl (by simp [sum_len_nil, chunk_size])
    (fun d hd => absurd hd (List.not_mem_nil d))

theorem split_loop_mem (A : List (List Char)) :
    ∀ (splits good final : List (List Char)),
      (∀ s ∈ splits, s ∈ A) →
      (∀ g ∈ good, g.length < chunk_size) →
      (∀ c ∈ final, c.length ≤ chunk_size ∨ (chunk_size ≤ c.length ∧ c ∈ A)) →
      ∀ c ∈ split_loop splits good final,
        c.length ≤ chunk_size ∨ (chunk_size ≤ c.length ∧ c ∈ A)
  | [], good, final, _hsp, hg, hf, c, hc => by
    simp only [split_loop] at hc
    rcases List.mem_append.mp hc with h | h
    · exact hf c h
    · by_cases hge : good.isEmpty
      · simp [hge] at h
      · rw [if_neg (by simp [hge])] at h
        exact Or.inl (merge_splits_bounded good hg c h)
  | s :: rest, good, final, hsp, hg, hf, c, hc => by
    have hsp_head : s ∈ A := hsp s (List.mem_cons_self s rest)
    have hsp_rest : ∀ x ∈ rest, x ∈ A := fun x hx => hsp x (List.mem_cons_of_mem s hx)
    simp only [split_loop] at hc
    by_cases hlen : s.length < chunk_size
    · rw [if_pos hlen] at hc
      refine split_loop_mem A rest (good ++ [s]) final hsp_rest ?_ hf c hc
      intro g hgm
      rcases List.mem_append.mp hgm with h | h
      · exact hg g h
      · rw [List.mem_singleton.mp h]
        exact hlen
    · rw [if_neg hlen] at hc
      refine split_loop_mem A rest [] _ hsp_rest
        (fun g hgm => absurd hgm (List.not_mem_nil g)) ?_ c hc
      intro x hx
      rcases List.mem_append.mp hx with h | h
      · rcases List.mem_append.mp h with h2 | h2
        · exact hf x h2
        · by_cases hge : good.isEmpty
          · simp [hge] at h2
          · rw [if_neg (by simp [hge])] at h2
            exact Or.inl (merge_splits_bounded good hg x h2)
      · rw [List.mem_singleton.mp h]
        exact Or.inr ⟨Nat.le_of_not_lt hlen, hsp_head⟩

/-- C1 (amended): every chunk produced by the text splitter either has length
at most 1250 or is one of the raw blank-line separated pieces of the input
(length at least 1250, emitted verbatim), and such an oversized chunk can sit
at any position, not only last; the overlap the merge step carries from one
chunk into the next consists of whole pieces totalling at most 250 characters
(so consecutive chunks overlap by at most — not exactly — 250). -/
theorem c1_chunking_amended :
    (∀ (text : List Char), ∀ c ∈ split_text text,
      c.length ≤ chunk_size ∨ (chunk_size ≤ c.length ∧ c ∈ split_text_keep_sep text)) ∧
    (∀ (dLen : Nat) (cur : List (List Char)),
      sum_len ((pop_loop dLen cur (sum_len cur)).1) ≤ chunk_overlap) := by
  constructor
  · intro text c hc
    exact split_loop_mem (split_text_keep_sep text) (split_text_keep_sep text) [] []
      (fun s hs => hs) (fun g hg => absurd hg (List.not_mem_nil g))
      (fun x hx => absurd hx (List.not_mem_nil x)) c hc
  · intro dLen cur
    have h := pop_loop_spec dLen cur (sum_len cur) rfl
    rw [h.1] at h
    exact h.2.1

/-- C1 (counterexample): on the text of 1251 letters a, a blank line, and 350
letters b, the splitter yields the chunks [a^1251, b^350]: the first, non-final
chunk has length 1251 > 1250, and the consecutive pair does not overlap in 250
characters (the 250-character suffix of the first chunk differs from the
250-character prefix of the second) although both chunks are longer than 250
characters. -/
theorem c1_chunking_counterexample :
    (split_text c1ex).map List.length = [1251, 350] ∧
    ¬ ((split_text c1ex).getD 0 []).length ≤ 1250 ∧
    ((split_text c1ex).getD 0 []).drop (1251 - 250) ≠
      ((split_text c1ex).getD 1 []).take 250 := by
  decide

/-- C1 (witness): the amended bound evaluated on a concrete two-letter text. -/
theorem c1_chunking_witness :
    "ab".toList.length ≤ chunk_size ∨
      (chunk_size ≤ "ab".toList.length ∧ "ab".toList ∈ split_text_keep_sep "ab".toList) :=
  c1_chunking_amended.1 "ab".toList "ab".toList (by decide)

/-! ### Lemmas about the file-system model -/

theorem lookupFS_writeFS_self {α : Type} (fs : FS α) (n : List Char) (v : α) :
    lookupFS (writeFS fs n v) n = some v := by
  simp [writeFS, lookupFS]

theorem removeFS_cons {α : Type} (e : List Char × α) (rest : FS α) (n : List Char) :
    removeFS (e :: rest) n =
      if e.1 = n then removeFS rest n else e :: removeFS rest n := by
  by_cases he : e.1 = n <;> simp [removeFS, List.filter, he]

theorem lookupFS_removeFS_self {α : Type} (fs : FS α) (n : List Char) :
    lookupFS (removeFS fs n) n = none := by
  induction fs with
  | nil => rfl
  | cons e rest ih =>
    rw [removeFS_cons]
    by_cases he : e.1 = n
    · simpa [he] using ih
    · simpa [lookupFS, he] using ih

theorem lookupFS_removeFS_ne {α : Type} (fs : FS α) (n m : List Char) (h : ¬ m = n) :
    lookupFS (removeFS fs n) m = lookupFS fs m := by
  induction fs with
  | nil => rfl
  | cons e rest ih =>
    rw [removeFS_cons]
    have hn : ¬ n = m := fun hnm => h hnm.symm
    by_cases he : e.1 = n
    · have hem : ¬ e.1 = m := by
        rw [he]
        exact hn
      rw [if_pos he]
      simpa [lookupFS, hem, hn] using ih
    · by_cases hem : e.1 = m
      · simp [lookupFS, he, hem, h, hn]
      · simpa [lookupFS, he, hem, h, hn] using ih

theorem lookupFS_writeFS_ne {α : Type} (fs : FS α) (n m : List Char) (v : α)
    (h : ¬ m = n) : lookupFS (writeFS fs n v) m = lookupFS fs m := by
  have hn : ¬ n = m := fun hnm => h hnm.symm
  simp only [writeFS, lookupFS, if_neg hn]
  exact lookupFS_removeFS_ne fs n m h

/-- C6: after a successful run of record_and_transcribe the temporary file
Question.wav is absent from the file system, and the deletion is guarded by an
existence check, so running the cleanup when the file is already missing
leaves the file system unchanged instead of raising. -/
theorem c6_temp_file_cleanup :
    (∀ (fs : FS (List Nat)) (audio : List Nat) (ts : List Nat → List Char),
      lookupFS (record_and_transcribe fs audio ts).1 question_wav = none) ∧
    (∀ fs : FS (List Nat),
      lookupFS fs question_wav = none → cleanup_question_wav fs = fs) := by
  constructor
  · intro fs audio ts
    have hw : lookupFS (writeFS fs question_wav audio) question_wav = some audio :=
      lookupFS_writeFS_self fs question_wav audio
    simp only [record_and_transcribe, cleanup_question_wav, hw, Option.isSome_some,
      if_pos]
    exact lookupFS_removeFS_self _ _
  · intro fs h
    simp [cleanup_question_wav, h]

/-- C6 (witness): the guarded deletion on an empty file system, where
Question.wav is missing, is a no-op. -/
theorem c6_temp_file_cleanup_witness :
    cleanup_question_wav ([] : FS (List Nat)) = [] :=
  c6_temp_file_cleanup.2 [] rfl

/-! ### Session orchestration theorems -/

/-- C7: within a turn each stage consumes the previous stage's output — the
transcript comes from the recorded audio, the answer from the transcript (with
the rerun-local, hence empty, chat history), the synthesized speech file from
the answer, the conversation log is extended with both the user and the bot
turn before the log and the inline audio player are rendered, and the rendered
player carries the base64 encoding of the just-synthesized speech.  The model
is a total straight-line function, so a turn that starts runs to completion
(any service failure in the source propagates as an uncaught exception). -/
theorem c7_turn_pipeline :
    ∀ (sv : Services) (docs : List (List Char)) (fs : FS (List Nat))
      (conv : List (List Char × List Char)) (audio : List Nat),
      audio ≠ [] →
      (run_chatbot sv (some docs) fs conv audio).conversation_history =
          conv ++ [(role_you, sv.transcription audio),
            (role_bot, sv.rag_answer (sv.transcription audio) [])] ∧
      lookupFS (run_chatbot sv (some docs) fs conv audio).fs speech_wav =
          some (sv.tts (sv.rag_answer (sv.transcription audio) [])) ∧
      (run_chatbot sv (some docs) fs conv audio).rendered =
          (run_chatbot sv (some docs) fs conv audio).conversation_history ∧
      (run_chatbot sv (some docs) fs conv audio).player =
          some (b64encode (sv.tts (sv.rag_answer (sv.transcription audio) []))) := by
  intro sv docs fs conv audio h
  have hne : audio.isEmpty = false := by
    cases audio with
    | nil => exact absurd rfl h
    | cons a as => rfl
  simp [run_chatbot, hne, record_and_transcribe, create_output_speech,
    convert_audio_to_base64, lookupFS_writeFS_self]

/-- C7 (witness): the pipeline facts evaluated on one concrete turn. -/
theorem c7_turn_pipeline_witness :
    (run_chatbot sample_services (some []) [] [] [104]).conversation_history =
        [] ++ [(role_you, sample_services.transcription [104]),
          (role_bot, sample_services.rag_answer (sample_services.transcription [104]) [])] ∧
    lookupFS (run_chatbot sample_services (some []) [] [] [104]).fs speech_wav =
        some (sample_services.tts
          (sample_services.rag_answer (sample_services.transcription [104]) [])) ∧
    (run_chatbot sample_services (some []) [] [] [104]).rendered =
        (run_chatbot sample_services (some []) [] [] [104]).conversation_history ∧
    (run_chatbot sample_services (some []) [] [] [104]).player =
        some (b64encode (sample_services.tts
          (sample_services.rag_answer (sample_services.transcription [104]) []))) :=
  c7_turn_pipeline sample_services [] [] [] [104] (by decide)

/-- Every rerun hands the answer chain a freshly created, empty local
chat history (or none at all when the turn body does not run). -/
theorem run_chatbot_historyPassed (sv : Services) (retriever : Option (List (List Char)))
    (fs : FS (List Nat)) (conv : List (List Char × List Char)) (audio : List Nat) :
    (run_chatbot sv retriever fs conv audio).historyPassed = none ∨
      (run_chatbot sv retriever fs conv audio).historyPassed = some [] := by
  cases retriever with
  | none => exact Or.inl rfl
  | some docs =>
    by_cases he : audio.isEmpty
    · exact Or.inl (by simp [run_chatbot, he])
    · exact Or.inr (by simp [run_chatbot, he])

theorem session_reruns_go_history (sv : Services) (retriever : Option (List (List Char))) :
    ∀ (audios : List (List Nat)) (fs : FS (List Nat))
      (conv : List (List Char × List Char)),
      ∀ o ∈ session_reruns_go sv retriever fs conv audios,
        o.historyPassed = none ∨ o.historyPassed = some []
  | [], _fs, _conv, o, ho => absurd ho (List.not_mem_nil o)
  | audio :: rest, fs, conv, o, ho => by
    simp only [session_reruns_go] at ho
    rcases List.mem_cons.mp ho with h | h
    · rw [h]
      exact run_chatbot_historyPassed sv retriever fs conv audio
    · exact session_reruns_go_history sv retriever rest _ _ o h

/-- C3: contrary to the claim, the chat history fed to the answer pipeline
never grows at all — on every rerun of the session it is the freshly created
empty local list (or absent when the turn body does not run) — and the
conversation-summary memory constructed in main (app.py line 252) is never
passed to any chain, so no summarization over a token budget ever happens. -/
theorem c3_history_never_grows :
    ∀ (sv : Services) (retriever : Option (List (List Char)))
      (audios : List (List Nat)),
      ∀ o ∈ session_reruns sv retriever audios,
        o.historyPassed = none ∨ o.historyPassed = some [] := by
  intro sv retriever audios o ho
  exact session_reruns_go_history sv retriever audios [] [] o ho

/-- C3 (witness): the first rerun of a concrete one-turn session. -/
theorem c3_history_never_grows_witness :
    ((session_reruns sample_services (some []) [[104]]).getD 0 no_outcome).historyPassed
        = none ∨
      ((session_reruns sample_services (some []) [[104]]).getD 0
        no_outcome).historyPassed = some [] :=
  c3_history_never_grows sample_services (some []) [[104]]
    ((session_reruns sample_services (some []) [[104]]).getD 0 no_outcome) (by decide)

/-- C2: on the second turn of a concrete two-turn session the chat history
handed to the query-rewriting chain is the empty list, while the session's
prior exchange (recorded in the persistent conversation log of the first
rerun) is non-empty: the history passed contains no prior exchange, because
chat_history is a local of run_chatbot recreated on every Streamlit rerun
(app.py line 188) and the extend on line 205 mutates only that local. -/
theorem c2_history_empty_on_second_turn :
    ((session_reruns sample_services (some []) [[104], [105]]).map
        RerunOutcome.historyPassed) = [some [], some []] ∧
    ((session_reruns sample_services (some []) [[104], [105]]).getD 0
        no_outcome).conversation_history ≠ [] := by
  decide

/-! ### Collection creation theorems -/

/-- C4: creating a new collection writes both the uploaded PDF and the
extracted text file into the working directory, not into data/, so the data/
listing of selectable collections is unchanged by the creation — the new
collection is materialized (second conjunct) but never listed (first
conjunct), contradicting the claim that it lands under data/ where it is
subsequently selectable. -/
theorem c4_new_collection_not_listed :
    ∀ (files : List (Dir × List Char)) (name : List Char),
      collection_list (files ++ create_collection_writes name) =
          collection_list files ∧
      (Dir.cwd, name ++ dot_txt) ∈ files ++ create_collection_writes name := by
  intro files name
  constructor
  · simp [collection_list, create_collection_writes, List.filter_append]
  · simp [create_collection_writes]

/-- C5: the create-new-collection submit path unpacks the single chunk list
returned by create_new_collection_streamlit into two targets, so it fails with
an unpacking error whenever the list does not have exactly two elements, and
when it has exactly two the retriever is built from only the second chunk. -/
theorem c5_create_submit_unpack :
    ∀ (pdf_text : List Char),
      ((create_new_collection_streamlit pdf_text).length ≠ 2 →
        initialize_BM25Retriever_submit pdf_text =
          CreateSubmitResult.unpackError
            (create_new_collection_streamlit pdf_text).length) ∧
      (∀ a b, create_new_collection_streamlit pdf_text = [a, b] →
        initialize_BM25Retriever_submit pdf_text =
          CreateSubmitResult.retrieverFromSecond b) := by
  intro pdf_text
  constructor
  · intro hlen
    rcases hl : create_new_collection_streamlit pdf_text with _ | ⟨a, _ | ⟨b, _ | ⟨c, rest⟩⟩⟩
    · simp [initialize_BM25Retriever_submit, hl]
    · simp [initialize_BM25Retriever_submit, hl]
    · rw [hl] at hlen
      simp at hlen
    · simp [initialize_BM25Retriever_submit, hl]
  · intro a b hl
    simp [initialize_BM25Retriever_submit, hl]

/-- C5 (witness): a one-chunk text hits the unpacking error; a text that
splits into exactly two chunks builds the retriever from only the second. -/
theorem c5_create_submit_unpack_witness :
    initialize_BM25Retriever_submit "x".toList =
        CreateSubmitResult.unpackError
          (create_new_collection_streamlit "x".toList).length ∧
    initialize_BM25Retriever_submit c5ex_two_chunks =
        CreateSubmitResult.retrieverFromSecond (List.replicate 700 'b') :=
  ⟨(c5_create_submit_unpack "x".toList).1 (by decide),
    (c5_create_submit_unpack c5ex_two_chunks).2 (List.replicate 700 'a')
      (List.replicate 700 'b') (by decide)⟩

/-! ### Base64 theorems -/

theorem decodeChar_encodeChar : ∀ n, n < 64 → decodeChar (encodeChar n) = n := by
  decide

theorem encodeChar_ne_pad : ∀ n, n < 64 → ¬ encodeChar n = '=' := by
  decide

theorem b64decode_b64encode :
    ∀ (bytes : List Nat), (∀ b ∈ bytes, b < 256) → b64decode (b64encode bytes) = bytes
  | [], _ => rfl
  | [b1], h => by
    have hb1 : b1 < 256 := h b1 (by simp)
    have h1 : b1 / 4 < 64 := by omega
    have h2 : b1 % 4 * 16 < 64 := by omega
    simp only [b64encode, b64decode, if_pos]
    rw [decodeChar_encodeChar _ h1, decodeChar_encodeChar _ h2]
    have hval : b1 / 4 * 4 + b1 % 4 * 16 / 16 = b1 := by omega
    rw [hval]
  | [b1, b2], h => by
    have hb1 : b1 < 256 := h b1 (by simp)
    have hb2 : b2 < 256 := h b2 (by simp)
    have h1 : b1 / 4 < 64 := by omega
    have h2 : b1 % 4 * 16 + b2 / 16 < 64 := by omega
    have h3 : b2 % 16 * 4 < 64 := by omega
    simp only [b64encode, b64decode, if_neg (encodeChar_ne_pad _ h3), if_pos]
    rw [decodeChar_encodeChar _ h1, decodeChar_encodeChar _ h2,
      decodeChar_encodeChar _ h3]
    have hv1 : (b1 / 4) * 4 + (b1 % 4 * 16 + b2 / 16) / 16 = b1 := by omega
    have hv2 : (b1 % 4 * 16 + b2 / 16) % 16 * 16 + b2 % 16 * 4 / 4 = b2 := by omega
    rw [hv1, hv2]
  | b1 :: b2 :: b3 :: b4 :: rest, h => by
    have hb1 : b1 < 256 := h b1 (by simp)
    have hb2 : b2 < 256 := h b2 (by simp)
    have hb3 : b3 < 256 := h b3 (by simp)
    have h1 : b1 / 4 < 64 := by omega
    have h2 : b1 % 4 * 16 + b2 / 16 < 64 := by omega
    have h3 : b2 % 16 * 4 + b3 / 64 < 64 := by omega
    have h4 : b3 % 64 < 64 := by omega
    have hrest : ∀ b ∈ b4 :: rest, b < 256 :=
      fun b hb => h b (by simp [hb])
    simp only [b64encode, b64decode, if_neg (encodeChar_ne_pad _ h3),
      if_neg (encodeChar_ne_pad _ h4)]
    rw [decodeChar_encodeChar _ h1, decodeChar_encodeChar _ h2,
      decodeChar_encodeChar _ h3, decodeChar_encodeChar _ h4]
    have hv1 : (b1 / 4) * 4 + (b1 % 4 * 16 + b2 / 16) / 16 = b1 := by omega
    have hv2 : (b1 % 4 * 16 + b2 / 16) % 16 * 16 + (b2 % 16 * 4 + b3 / 64) / 4 = b2 := by
      omega
    have hv3 : (b2 % 16 * 4 + b3 / 64) % 4 * 64 + b3 % 64 = b3 := by omega
    rw [hv1, hv2, hv3, b64decode_b64encode (b4 :: rest) hrest]
  | [b1, b2, b3], h => by
    have hb1 : b1 < 256 := h b1 (by simp)
    have hb2 : b2 < 256 := h b2 (by simp)
    have hb3 : b3 < 256 := h b3 (by simp)
    have h1 : b1 / 4 < 64 := by omega
    have h2 : b1 % 4 * 16 + b2 / 16 < 64 := by omega
    have h3 : b2 % 16 * 4 + b3 / 64 < 64 := by omega
    have h4 : b3 % 64 < 64 := by omega
    simp only [b64encode, b64decode, if_neg (encodeChar_ne_pad _ h3),
      if_neg (encodeChar_ne_pad _ h4)]
    rw [decodeChar_encodeChar _ h1, decodeChar_encodeChar _ h2,
      decodeChar_encodeChar _ h3, decodeChar_encodeChar _ h4]
    have hv1 : (b1 / 4) * 4 + (b1 % 4 * 16 + b2 / 16) / 16 = b1 := by omega
    have hv2 : (b1 % 4 * 16 + b2 / 16) % 16 * 16 + (b2 % 16 * 4 + b3 / 64) / 4 = b2 := by
      omega
    have hv3 : (b2 % 16 * 4 + b3 / 64) % 4 * 64 + b3 % 64 = b3 := by omega
    rw [hv1, hv2, hv3]

/-- C8: base64-decoding the string produced by convert_audio_to_base64 on the
stored audio file yields exactly the original bytes. -/
theorem c8_base64_roundtrip :
    ∀ (fs : FS (List Nat)) (path : List Char) (bytes : List Nat),
      lookupFS fs path = some bytes → (∀ b ∈ bytes, b < 256) →
      (convert_audio_to_base64 fs path).map b64decode = some bytes := by
  intro fs path bytes hl hb
  simp [convert_audio_to_base64, hl, b64decode_b64encode bytes hb]

/-- C8 (witness): the round trip on a concrete four-byte audio file. -/
theorem c8_base64_roundtrip_witness :
    (convert_audio_to_base64 [(speech_wav, [0, 255, 10, 77])] speech_wav).map b64decode
      = some [0, 255, 10, 77] :=
  c8_base64_roundtrip [(speech_wav, [0, 255, 10, 77])] speech_wav [0, 255, 10, 77]
    (by decide) (by decide)

/-! ### Retrieval determinism theorem -/

/-- C9: retrieval is a deterministic function of the collection's text and the
query alone — two retrievals within a session (each rerun rebuilds the
retriever from the on-disk collection) agree whenever the collection file is
unchanged, whatever else changed on disk, for every fixed scoring function. -/
theorem c9_retrieval_deterministic :
    ∀ (score : List Char → List Char → Int) (fsA fsB : FS (List Char))
      (filepath query : List Char) (k : Nat),
      lookupFS fsA (data_slash ++ filepath) = lookupFS fsB (data_slash ++ filepath) →
      retrieve_in_session score fsA filepath query k =
        retrieve_in_session score fsB filepath query k := by
  intro score fsA fsB filepath query k h
  simp [retrieve_in_session, load_BM25Retriever, h]

/-- C9 (witness): two retrievals over the same collection file agree even
though the second file system carries an extra unrelated file. -/
theorem c9_retrieval_deterministic_witness :
    retrieve_in_session (fun _ _ => 0)
        [(data_slash ++ "c.txt".toList, "t".toList)] "c.txt".toList "q".toList 3 =
      retrieve_in_session (fun _ _ => 0)
        [("other".toList, "zzz".toList), (data_slash ++ "c.txt".toList, "t".toList)]
        "c.txt".toList "q".toList 3 :=
  c9_retrieval_deterministic (fun _ _ => 0)
    [(data_slash ++ "c.txt".toList, "t".toList)]
    [("other".toList, "zzz".toList), (data_slash ++ "c.txt".toList, "t".toList)]
    "c.txt".toList "q".toList 3 (by decide)

/-! ### Voice selection theorem -/

/-- C10: the selectbox offers exactly the labels Adam, Onyx, Nova, Ocean (the
keys of voice_dict, listed without duplicates, so each maps to exactly one
synthesis voice identifier — alloy, onyx, nova, shimmer respectively), and the
lookup voice_dict[voice_key] succeeds for every selectable label. -/
theorem c10_voice_mapping :
    voice_options = ["Adam", "Onyx", "Nova", "Ocean"] ∧
    voice_options.Nodup ∧
    voice_dict.map Prod.snd = ["alloy", "onyx", "nova", "shimmer"] ∧
    ∀ k ∈ voice_options, (lookup_voice k).isSome = true := by
  refine ⟨rfl, by decide, rfl, by decide⟩

/-- C10 (witness): the lookup on the concrete label Adam succeeds. -/
theorem c10_voice_mapping_witness : (lookup_voice "Adam").isSome = true :=
  c10_voice_mapping.2.2.2 "Adam" (by decide)
